import Mathlib

/-!
Shallow embedding of the `ApiRateLimiter` class of `src/api-rate-limiter.ts`
(token-bucket variant with an `AsyncLock`) and of the `AsyncLock` class.

Modelling conventions:
  * JavaScript numbers are modelled exactly: the per-second counter, the
    configured limits and queue bound are integers (`Int`), while the
    per-minute counter is a rational (`Rat`) because `refillMpmCounter`
    adds the fractional quantity `(elapsedMs / 60000) * maxPerMinute`.
  * `Math.floor` is `Int.floor`, `Math.min` is `min`.
  * Wall-clock time is abstracted by the nonnegative number of milliseconds
    `elapsed = Date.now() - lastMpmRefill` that a tick observes; `timerTick`
    is therefore parameterised by `elapsed`.
  * Two transition systems are given.  The coarse `RateLimiter.Step` system
    treats one tick and one admission as atomic steps; it models serialized
    executions, in which each operation (a tick together with the
    per-request decrements of the items it releases, or an admission)
    completes before the next begins.  The source does not always run
    serialized: `this.timer` is only assigned at the very end of a tick, so
    a `startTimer`-invoked tick leaves `timer` unset while it is in flight
    and a concurrent `addRequest` spawns a second, overlapping tick.  The
    fine-grained `Micro` system below models the event loop at the
    granularity of the source's `await` points, lock hand-offs included,
    and exhibits those overlapping executions; `Adm.AdmStep` is a small
    fine-grained model of just the admission path (whose queue-capacity
    check runs before the lock is acquired, as in the source).
  * Requests are opaque values of a type parameter `Req`; the limiter never
    inspects them.
-/

namespace RateLimiter

/-- Effective configuration of the limiter, after the constructor has merged
the caller's options with the defaults of the constants module
(`maxPerSecond`, `maxPerMinute`, `maxQueueSize`). -/
structure Config where
  maxPerSecond : Int
  maxPerMinute : Int
  maxQueueSize : Int
deriving DecidableEq

/-- `InvalidOptionsError` of `errors.ts`. -/
inductive InvalidOptionsError where
  | invalidOptions
deriving DecidableEq

/-- `QueueFullError` of `errors.ts`. -/
inductive QueueFullError where
  | queueFull
deriving DecidableEq

/-- Constructor of `ApiRateLimiter` (validation part): it throws
`InvalidOptionsError` iff `maxPerSecond > maxPerMinute || maxPerSecond <= 0
|| maxPerMinute <= 0`; `maxQueueSize` is not inspected by the check. -/
def construct (maxPerSecond maxPerMinute maxQueueSize : Int) :
    Except InvalidOptionsError Config :=
  if maxPerSecond > maxPerMinute ∨ maxPerSecond ≤ 0 ∨ maxPerMinute ≤ 0 then
    .error .invalidOptions
  else
    .ok ⟨maxPerSecond, maxPerMinute, maxQueueSize⟩

/-- `true` iff `construct` returns an instance rather than throwing. -/
def constructSucceeds (maxPerSecond maxPerMinute maxQueueSize : Int) : Bool :=
  match construct maxPerSecond maxPerMinute maxQueueSize with
  | .ok _ => true
  | .error _ => false

/-- Mutable fields of an `ApiRateLimiter` instance: the drain timer handle
(`none`/`some` collapsed to a `Bool`: is a timer armed), the FIFO queue of
pending requests, and the two token counters.  `lastMpmRefill` is abstracted
into the `elapsed` parameter of `timerTick`. -/
structure RLState (Req : Type) where
  timer : Bool
  queue : List Req
  mpsCounter : Int
  mpmCounter : Rat
deriving DecidableEq

/-- State established by the constructor: no timer, empty queue, both
counters full. -/
def initState (c : Config) (Req : Type) : RLState Req :=
  ⟨false, [], c.maxPerSecond, (c.maxPerMinute : Rat)⟩

/-- `refillMpmCounter`: add `(elapsed / 60000) * maxPerMinute` tokens,
clamped at `maxPerMinute`. -/
def refillMpmCounter (c : Config) (mpm : Rat) (elapsed : Rat) : Rat :=
  min (mpm + elapsed / 60000 * (c.maxPerMinute : Rat)) (c.maxPerMinute : Rat)

/-- `calculateAvailableRequests`: `Math.min(this.mpsCounter,
Math.floor(this.mpmCounter))`. -/
def calculateAvailableRequests {Req : Type} (s : RLState Req) : Int :=
  min s.mpsCounter ⌊s.mpmCounter⌋

/-- The `while (!this.queue.isEmpty() && processed < availableTokens)` loop
of `timerTick`: starting from the counter value `processed`, shift items off
the front of the queue while the counter is below `avail`.  Returns the
dequeued items (in dequeue order) and the remaining queue. -/
def dequeueLoop (avail : Int) : Nat → List Req → List Req × List Req
  | _, [] => ([], [])
  | processed, r :: rest =>
    if (processed : Int) < avail then
      let p := dequeueLoop avail (processed + 1) rest
      (r :: p.1, p.2)
    else
      ([], r :: rest)

/-- First phase of `timerTick`, performed under the lock: reset `mpsCounter`
to `maxPerSecond` and refill `mpmCounter` from the elapsed wall-clock time. -/
def refillPhase (c : Config) (s : RLState Req) (elapsed : Rat) : RLState Req :=
  { s with
    mpsCounter := c.maxPerSecond
    mpmCounter := refillMpmCounter c s.mpmCounter elapsed }

/-- One complete `timerTick`: refill both buckets, compute
`availableTokens = Math.min(mpsCounter, Math.floor(mpmCounter))`, dequeue up
to that many items (each launched `processRequest` decrements both counters
by one before running the request), await them all, and re-arm the timer iff
the queue is still non-empty.  Returns the post-tick state together with the
list of items released during the tick. -/
def timerTick (c : Config) (s : RLState Req) (elapsed : Rat) :
    RLState Req × List Req :=
  let s1 := refillPhase c s elapsed
  let availableTokens := min s1.mpsCounter ⌊s1.mpmCounter⌋
  let dq := dequeueLoop availableTokens 0 s1.queue
  (⟨!dq.2.isEmpty, dq.2,
    s1.mpsCounter - dq.1.length, s1.mpmCounter - (dq.1.length : Rat)⟩, dq.1)

/-- Result of one `addRequest` call: whether it threw `QueueFullError`, the
limiter state after the call (including the immediate `timerTick` that
`startTimer` runs when no timer was armed), and the items released during
that immediate tick. -/
structure AddResult (Req : Type) where
  outcome : Except QueueFullError Unit
  state : RLState Req
  released : List Req

/-- `addRequest`: throw `QueueFullError` if `queue.length >= maxQueueSize`;
otherwise push the item and, if no timer is armed, run `startTimer`, which
invokes `timerTick` directly (not via `setTimeout`). -/
def addRequest (c : Config) (s : RLState Req) (r : Req) (elapsed : Rat) :
    AddResult Req :=
  if (s.queue.length : Int) ≥ c.maxQueueSize then
    ⟨.error .queueFull, s, []⟩
  else
    let s1 : RLState Req := { s with queue := s.queue ++ [r] }
    if s.timer then
      ⟨.ok (), s1, []⟩
    else
      let t := timerTick c s1 elapsed
      ⟨.ok (), t.1, t.2⟩

/-- Transitions of the limiter under serialized operation: a timer tick
observing some nonnegative elapsed time, or an `addRequest` call (accepted
or rejected), each run to completion before the next begins.  Overlapping
executions — which the source permits, since `timer` stays unset during a
`startTimer`-invoked tick — are modelled by the fine-grained `Micro` system
instead. -/
inductive Step (c : Config) {Req : Type} : RLState Req → RLState Req → Prop where
  | tick (s : RLState Req) (elapsed : Rat) (he : 0 ≤ elapsed) :
      Step c s (timerTick c s elapsed).1
  | add (s : RLState Req) (r : Req) (elapsed : Rat) (he : 0 ≤ elapsed) :
      Step c s (addRequest c s r elapsed).state

/-- States reachable from the freshly constructed limiter. -/
inductive Reachable (c : Config) {Req : Type} : RLState Req → Prop where
  | init : Reachable c (initState c Req)
  | step {s t : RLState Req} : Reachable c s → Step c s t → Reachable c t

/-- Validation region accepted by the constructor. -/
def ValidLimits (c : Config) : Prop :=
  0 < c.maxPerSecond ∧ 0 < c.maxPerMinute ∧ c.maxPerSecond ≤ c.maxPerMinute

/-- Token invariant of the spec: both counters stay within `[0, cap]`. -/
def CounterInv (c : Config) (s : RLState Req) : Prop :=
  0 ≤ s.mpsCounter ∧ s.mpsCounter ≤ c.maxPerSecond ∧
    0 ≤ s.mpmCounter ∧ s.mpmCounter ≤ (c.maxPerMinute : Rat)


end RateLimiter

/-!
Embedding of the `AsyncLock` class (`async-lock.ts`).  Callers are
identified by natural numbers.  The concrete fields `locked` and
`waitingQueue` mirror the source; the ghost fields record, for stating
the contract, which callers currently hold a release capability
(`holders`: granted by `acquire` and not yet released), which waiters have
been granted the lock by `release` (`grants`, in grant order), and which
callers were ever appended to `waitingQueue` (`enqueuedWaiters`, in
append order).
-/

namespace AsyncLock

structure LockState where
  locked : Bool
  waitingQueue : List Nat
  holders : List Nat
  grants : List Nat
  enqueuedWaiters : List Nat
deriving DecidableEq

/-- A freshly constructed `AsyncLock`. -/
def lockInit : LockState := ⟨false, [], [], [], []⟩

/-- Transitions of `AsyncLock`.  `acquire` by caller `c` either takes the
free lock immediately (`acquireFree`) or appends a resume callback to
`waitingQueue` (`acquireBusy`).  `release`, invoked by the unique current
holder, either hands the lock to the shifted front waiter (`releaseToWaiter`:
the callback sets `locked = true` and resolves that waiter's `acquire`) or
clears `locked` (`releaseIdle`).  Release is invoked at most once per
acquire, which the source does not guard against and the spec leaves
undefined otherwise. -/
inductive LockStep : LockState → LockState → Prop where
  | acquireFree (s : LockState) (c : Nat) : s.locked = false →
      LockStep s { s with locked := true, holders := s.holders ++ [c] }
  | acquireBusy (s : LockState) (c : Nat) : s.locked = true →
      LockStep s { s with
        waitingQueue := s.waitingQueue ++ [c]
        enqueuedWaiters := s.enqueuedWaiters ++ [c] }
  | releaseToWaiter (s : LockState) (c w : Nat) (rest : List Nat) :
      s.holders = [c] → s.waitingQueue = w :: rest →
      LockStep s { s with
        locked := true
        waitingQueue := rest
        holders := [w]
        grants := s.grants ++ [w] }
  | releaseIdle (s : LockState) (c : Nat) :
      s.holders = [c] → s.waitingQueue = [] →
      LockStep s { s with locked := false, holders := [] }

inductive LockReachable : LockState → Prop where
  | init : LockReachable lockInit
  | step {s t : LockState} : LockReachable s → LockStep s t → LockReachable t

/-- Inductive invariant of the lock. -/
def LockInv (s : LockState) : Prop :=
  (s.locked = false → s.holders = [] ∧ s.waitingQueue = []) ∧
    (s.locked = true → s.holders.length = 1) ∧
    s.enqueuedWaiters = s.grants ++ s.waitingQueue

end AsyncLock

/-!
Fine-grained model of the admission path of `addRequest`.  In the source the
capacity check `this.queue.length >= this.maxQueueSize` runs synchronously
when `addRequest` is called, but the push onto `this.queue` only happens
after `await this.tokenLock.acquire()` has resumed the caller.  Between the
check and the push, other `addRequest` calls may run their own checks.  The
model therefore splits one call into a `checkPass`/`checkFail` step and a
later `push` step (pushes resume in lock-queue FIFO order); `drainOne`
models the drain loop removing the front item.  Requests are labelled by
naturals. -/

namespace Adm

structure AdmState where
  queue : List Nat
  pendingPush : List Nat
deriving DecidableEq

inductive AdmStep (maxQueueSize : Int) : AdmState → AdmState → Prop where
  | checkPass (s : AdmState) (r : Nat) :
      ((s.queue.length : Int) < maxQueueSize) →
      AdmStep maxQueueSize s ⟨s.queue, s.pendingPush ++ [r]⟩
  | checkFail (s : AdmState) (r : Nat) :
      ((s.queue.length : Int) ≥ maxQueueSize) →
      AdmStep maxQueueSize s s
  | push (s : AdmState) (r : Nat) (rest : List Nat) :
      s.pendingPush = r :: rest →
      AdmStep maxQueueSize s ⟨s.queue ++ [r], rest⟩
  | drainOne (s : AdmState) (r : Nat) (rest : List Nat) :
      s.queue = r :: rest →
      AdmStep maxQueueSize s ⟨rest, s.pendingPush⟩

inductive AdmReachable (maxQueueSize : Int) : AdmState → Prop where
  | init : AdmReachable maxQueueSize ⟨[], []⟩
  | step {s t : AdmState} : AdmReachable maxQueueSize s →
      AdmStep maxQueueSize s t → AdmReachable maxQueueSize t

end Adm

/-!
Fine-grained model of the limiter at the granularity of the JavaScript
event loop.  Each `await` of the source is a suspension point; the code
between one resumption and the next suspension runs atomically.  The state
carries the limiter's mutable fields together with the `AsyncLock`'s state:
`locked`, the current granted-but-not-yet-resumed continuation (`owner` —
`release` hands the lock to the front waiter, whose continuation then runs
in a later microtask), and the FIFO `lockQueue` of suspended acquirers.
A pending continuation is one of:
  * `addReq r` — an `addRequest` call that passed the capacity check and is
    suspended at `await tokenLock.acquire()`; on resumption it pushes `r`,
    and because `this.timer` is only ever assigned at the very end of a
    tick, it sees `timer` still unset and spawns a `timerTick` (whose
    `acquire` suspends it), then releases;
  * `tickAcq t` — a `timerTick` suspended at its `acquire`; on resumption
    it resets and refills the counters, releases, computes
    `availableTokens`, shifts that many items, spawning one `processRequest`
    per item (each suspending at its own `acquire`), and then suspends in
    `await Promise.allSettled` (recorded in `joined` with the count of its
    unsettled releases);
  * `procAcq t` — a `processRequest` launched by tick `t`, suspended at its
    `acquire`; on resumption it decrements both counters, releases, and
    starts the caller's request (recorded in `running` until it settles).
`tickFinish` is the post-`allSettled` tail of a tick (run without the
lock): it assigns `this.timer` — a `setTimeout` handle when the queue is
non-empty (`timerFires` models that timeout firing a new tick), `null`
otherwise.  This model exhibits the interleavings that the serialized
`RateLimiter.Step` system excludes: two admissions in the same turn each
observe `timer` unset and spawn overlapping ticks.
-/

namespace Micro

inductive MicroTask where
  | addReq (r : Nat)
  | tickAcq (t : Nat)
  | procAcq (t : Nat)
deriving DecidableEq

structure MicroState where
  timer : Bool
  queue : List Nat
  mpsCounter : Int
  mpmCounter : Rat
  locked : Bool
  owner : Option MicroTask
  lockQueue : List MicroTask
  joined : List (Nat × Nat)
  running : List Nat
  nextTick : Nat
deriving DecidableEq

/-- State of a freshly constructed limiter with a fresh `AsyncLock`. -/
def microInit (c : RateLimiter.Config) : MicroState :=
  ⟨false, [], c.maxPerSecond, (c.maxPerMinute : Rat), false, none, [], [], [], 0⟩

/-- `tokenLock.acquire()` by continuation `w`: a free lock is taken at once
(`w` is granted and will resume in a later microtask); a held lock appends
`w` to `waitingQueue`. -/
def acquireTask (s : MicroState) (w : MicroTask) : MicroState :=
  if s.locked then { s with lockQueue := s.lockQueue ++ [w] }
  else { s with locked := true, owner := some w }

/-- `release()`: hand the lock to the shifted front waiter (it stays
locked), or clear `locked` when nobody waits. -/
def releaseLock (s : MicroState) : MicroState :=
  match s.lockQueue with
  | w :: rest => { s with owner := some w, lockQueue := rest }
  | [] => { s with locked := false, owner := none }

/-- Resumed body of `addRequest` (after `await acquire`): push the item;
if `this.timer` is unset — which it still is while a `startTimer`-invoked
tick is in flight — `startTimer` calls `timerTick()`, which suspends at its
`acquire`; finally release. -/
def addRun (s : MicroState) (r : Nat) : MicroState :=
  let s1 := { s with queue := s.queue ++ [r] }
  if s1.timer then
    releaseLock s1
  else
    releaseLock
      { acquireTask s1 (MicroTask.tickAcq s1.nextTick) with
          nextTick := s1.nextTick + 1 }

/-- Spawn `k` `processRequest` continuations of tick `t`, each suspending
at its `acquire`, in loop order. -/
def spawnProcs (t : Nat) : Nat → MicroState → MicroState
  | 0, s => s
  | Nat.succ k, s => spawnProcs t k (acquireTask s (MicroTask.procAcq t))

/-- Resumed body of `timerTick` up to `await Promise.allSettled`: under the
lock reset `mpsCounter` and refill `mpmCounter`, release, then
synchronously compute `availableTokens` from the just-written counters,
shift up to that many items and launch their `processRequest`s, and record
the tick as awaiting their settlement. -/
def tickRun (c : RateLimiter.Config) (s : MicroState) (t : Nat)
    (elapsed : Rat) : MicroState :=
  let s1 := { s with
    mpsCounter := c.maxPerSecond
    mpmCounter := RateLimiter.refillMpmCounter c s.mpmCounter elapsed }
  let s2 := releaseLock s1
  let availableTokens := min s1.mpsCounter ⌊s1.mpmCounter⌋
  let dq := RateLimiter.dequeueLoop availableTokens 0 s2.queue
  let s3 := spawnProcs t dq.1.length { s2 with queue := dq.2 }
  { s3 with joined := s3.joined ++ [(t, dq.1.length)] }

/-- Resumed body of `processRequest` up to `await request()`: decrement
both counters under the lock, release, and start the caller's request. -/
def procRun (s : MicroState) (t : Nat) : MicroState :=
  let s1 := { s with
    mpsCounter := s.mpsCounter - 1
    mpmCounter := s.mpmCounter - 1 }
  { releaseLock s1 with running := s1.running ++ [t] }

/-- Record the settlement of one `processRequest` of tick `t` in the
`allSettled` bookkeeping. -/
def settleJoin : List (Nat × Nat) → Nat → List (Nat × Nat)
  | [], _ => []
  | (u, n) :: rest, t =>
    if u = t then (u, n - 1) :: rest else (u, n) :: settleJoin rest t

/-- Event-loop transitions of the limiter.  `callAdd`/`callAddFull` are the
synchronous prefix of an `addRequest` call (capacity check, then
`acquire`); `runAdd`/`runTick`/`runProc` resume the granted continuation;
`procSettle` settles one released request; `tickFinish` is a tick's
post-`allSettled` timer assignment; `timerFires` is a scheduled timeout
invoking a fresh `timerTick`. -/
inductive MicroStep (c : RateLimiter.Config) : MicroState → MicroState → Prop where
  | callAdd (s : MicroState) (r : Nat) :
      (s.queue.length : Int) < c.maxQueueSize →
      MicroStep c s (acquireTask s (MicroTask.addReq r))
  | callAddFull (s : MicroState) (r : Nat) :
      (s.queue.length : Int) ≥ c.maxQueueSize →
      MicroStep c s s
  | runAdd (s : MicroState) (r : Nat) :
      s.owner = some (MicroTask.addReq r) →
      MicroStep c s (addRun s r)
  | runTick (s : MicroState) (t : Nat) (elapsed : Rat) :
      0 ≤ elapsed → s.owner = some (MicroTask.tickAcq t) →
      MicroStep c s (tickRun c s t elapsed)
  | runProc (s : MicroState) (t : Nat) :
      s.owner = some (MicroTask.procAcq t) →
      MicroStep c s (procRun s t)
  | procSettle (s : MicroState) (t : Nat) :
      t ∈ s.running →
      MicroStep c s { s with
        running := s.running.erase t
        joined := settleJoin s.joined t }
  | tickFinish (s : MicroState) (t : Nat) :
      (t, 0) ∈ s.joined →
      MicroStep c s { s with
        timer := !s.queue.isEmpty
        joined := s.joined.erase (t, 0) }
  | timerFires (s : MicroState) :
      s.timer = true →
      MicroStep c s
        { acquireTask s (MicroTask.tickAcq s.nextTick) with
            nextTick := s.nextTick + 1 }

inductive MicroReachable (c : RateLimiter.Config) : MicroState → Prop where
  | init : MicroReachable c (microInit c)
  | step {s t : MicroState} : MicroReachable c s → MicroStep c s t →
      MicroReachable c t

end Micro

/-!
Embedding of `processRequest`'s settlement path.  The caller-supplied
request either produces a value or an error; the error handler either
returns or throws.  `processRequestEvents` lists, in program order, the
observable actions of the `try`/`catch` blocks of `processRequest`: the
error handler call, the `console.error` logging of a throwing handler (the
inner `catch`, which consumes the handler's exception so that nothing
escapes into the drain loop), and the final settlement of the caller's
promise. -/

namespace ProcessRequest

inductive ReqResult (T E : Type) where
  | ok : T → ReqResult T E
  | err : E → ReqResult T E

inductive PEvent (T E H : Type) where
  | resolveCaller : T → PEvent T E H
  | callErrorHandler : E → PEvent T E H
  | consoleErrorLog : H → PEvent T E H
  | rejectCaller : E → PEvent T E H
deriving DecidableEq

/-- Events of `try { this.errorHandler(error) } catch (handlerError) {
console.error(..., handlerError) }`. -/
def handlerEvents {T E H : Type} (errorHandler : E → Except H Unit) (e : E) :
    List (PEvent T E H) :=
  match errorHandler e with
  | .ok _ => [.callErrorHandler e]
  | .error herr => [.callErrorHandler e, .consoleErrorLog herr]

/-- Events of the settlement part of `processRequest`. -/
def processRequestEvents {T E H : Type} (res : ReqResult T E)
    (errorHandler : E → Except H Unit) : List (PEvent T E H) :=
  match res with
  | .ok v => [.resolveCaller v]
  | .err e => handlerEvents errorHandler e ++ [.rejectCaller e]

end ProcessRequest


/-! Lemmas about the rate-limiter model. -/

namespace RateLimiter

lemma dequeueLoop_append (avail : Int) :
    ∀ (q : List Req) (p : Nat),
      (dequeueLoop avail p q).1 ++ (dequeueLoop avail p q).2 = q := by
  intro q
  induction q with
  | nil => intro p; simp [dequeueLoop]
  | cons r rest ih =>
      intro p
      by_cases h : (p : Int) < avail
      · simp [dequeueLoop, h, ih (p + 1)]
      · simp [dequeueLoop, h]

lemma dequeueLoop_length (avail : Int) :
    ∀ (q : List Req) (p : Nat),
      (dequeueLoop avail p q).1.length = 0 ∨
        (p : Int) + (dequeueLoop avail p q).1.length ≤ avail := by
  intro q
  induction q with
  | nil => intro p; left; simp [dequeueLoop]
  | cons r rest ih =>
      intro p
      by_cases h : (p : Int) < avail
      · right
        rcases ih (p + 1) with h0 | hle
        · simp [dequeueLoop, h, h0]
          omega
        · simp only [dequeueLoop, h, if_pos, List.length_cons]
          push_cast at hle ⊢
          omega
      · left; simp [dequeueLoop, h]

/-- Number of items a tick releases, bounded by the available tokens
whenever those are nonnegative. -/
lemma dequeueLoop_length_le {avail : Int} (ha : 0 ≤ avail) (q : List Req) :
    ((dequeueLoop avail 0 q).1.length : Int) ≤ avail := by
  rcases dequeueLoop_length avail q 0 with h0 | hle
  · omega
  · push_cast at hle
    omega

lemma refillMpmCounter_nonneg (c : Config) {mpm elapsed : Rat}
    (hc : 0 < c.maxPerMinute) (hm : 0 ≤ mpm) (he : 0 ≤ elapsed) :
    0 ≤ refillMpmCounter c mpm elapsed := by
  refine le_min (by positivity) ?_
  exact_mod_cast hc.le

lemma refillMpmCounter_le (c : Config) (mpm elapsed : Rat) :
    refillMpmCounter c mpm elapsed ≤ (c.maxPerMinute : Rat) :=
  min_le_right _ _

/-- Bounds that hold after the refill phase and after each of the first `j`
per-request decrements of a tick (each launched `processRequest` decrements
both counters by one). -/
lemma tick_partial_bounds (c : Config) (s : RLState Req) (elapsed : Rat)
    (hv : ValidLimits c) (hs : CounterInv c s) (he : 0 ≤ elapsed)
    (j : Nat) (hj : j ≤ (timerTick c s elapsed).2.length) :
    0 ≤ (refillPhase c s elapsed).mpsCounter - j ∧
      (refillPhase c s elapsed).mpsCounter - j ≤ c.maxPerSecond ∧
      0 ≤ (refillPhase c s elapsed).mpmCounter - j ∧
      (refillPhase c s elapsed).mpmCounter - j ≤ (c.maxPerMinute : Rat) := by
  obtain ⟨hps, hpm, hle⟩ := hv
  obtain ⟨h1, h2, h3, h4⟩ := hs
  set mpm1 := refillMpmCounter c s.mpmCounter elapsed with hmpm1
  have hm0 : 0 ≤ mpm1 := refillMpmCounter_nonneg c hpm h3 he
  have hm1 : mpm1 ≤ (c.maxPerMinute : Rat) := refillMpmCounter_le c _ _
  have hfl : 0 ≤ ⌊mpm1⌋ := Int.floor_nonneg.mpr hm0
  have ha : 0 ≤ min c.maxPerSecond ⌊mpm1⌋ := le_min hps.le hfl
  have hk : ((timerTick c s elapsed).2.length : Int) ≤ min c.maxPerSecond ⌊mpm1⌋ := by
    simpa [timerTick, refillPhase, hmpm1] using
      dequeueLoop_length_le ha (refillPhase c s elapsed).queue
  have hjk : (j : Int) ≤ min c.maxPerSecond ⌊mpm1⌋ := le_trans (by exact_mod_cast hj) hk
  have hjs : (j : Int) ≤ c.maxPerSecond := le_trans hjk (min_le_left _ _)
  have hjf : (j : Int) ≤ ⌊mpm1⌋ := le_trans hjk (min_le_right _ _)
  have hjm : (j : Rat) ≤ mpm1 := by
    calc (j : Rat) ≤ (⌊mpm1⌋ : Rat) := by exact_mod_cast hjf
    _ ≤ mpm1 := Int.floor_le mpm1
  refine ⟨?_, ?_, ?_, ?_⟩
  · simp only [refillPhase]
    omega
  · simp only [refillPhase]
    omega
  · simp only [refillPhase, ← hmpm1]
    linarith
  · simp only [refillPhase, ← hmpm1]
    have : (0 : Rat) ≤ (j : Rat) := by positivity
    linarith

/-- A tick preserves the token invariant. -/
lemma counterInv_timerTick (c : Config) (s : RLState Req) (elapsed : Rat)
    (hv : ValidLimits c) (hs : CounterInv c s) (he : 0 ≤ elapsed) :
    CounterInv c (timerTick c s elapsed).1 := by
  have h := tick_partial_bounds c s elapsed hv hs he (timerTick c s elapsed).2.length le_rfl
  obtain ⟨b1, b2, b3, b4⟩ := h
  simp only [timerTick, refillPhase] at b1 b2 b3 b4 ⊢
  exact ⟨b1, b2, b3, b4⟩

/-- An `addRequest` call preserves the token invariant. -/
lemma counterInv_addRequest (c : Config) (s : RLState Req) (r : Req) (elapsed : Rat)
    (hv : ValidLimits c) (hs : CounterInv c s) (he : 0 ≤ elapsed) :
    CounterInv c (addRequest c s r elapsed).state := by
  unfold addRequest
  split
  · exact hs
  · split
    · exact hs
    · exact counterInv_timerTick c _ elapsed hv hs he

/-- A single transition preserves the token invariant. -/
lemma counterInv_step (c : Config) {s t : RLState Req} (hv : ValidLimits c)
    (hstep : Step c s t) (hs : CounterInv c s) : CounterInv c t := by
  cases hstep with
  | tick elapsed he => exact counterInv_timerTick c s elapsed hv hs he
  | add r elapsed he => exact counterInv_addRequest c s r elapsed hv hs he

/-- The token invariant holds in every reachable state. -/
lemma reachable_counterInv (c : Config) {s : RLState Req}
    (hv : ValidLimits c) (hs : Reachable c s) : CounterInv c s := by
  induction hs with
  | init =>
      refine ⟨hv.1.le, le_rfl, ?_, le_rfl⟩
      show (0 : Rat) ≤ (c.maxPerMinute : Rat)
      exact_mod_cast hv.2.1.le
  | step _ hstep ih => exact counterInv_step c hv hstep ih

/-- The released items of a tick, followed by the remaining queue, form the
pre-tick queue: the tick removes a FIFO prefix. -/
lemma timerTick_queue_eq (c : Config) (s : RLState Req) (elapsed : Rat) :
    (timerTick c s elapsed).2 ++ (timerTick c s elapsed).1.queue = s.queue := by
  simp [timerTick, refillPhase, dequeueLoop_append]

lemma timerTick_queue_length_le (c : Config) (s : RLState Req) (elapsed : Rat) :
    (timerTick c s elapsed).1.queue.length ≤ s.queue.length := by
  have h := timerTick_queue_eq c s elapsed
  have := congrArg List.length h
  simp only [List.length_append] at this
  omega

/-- An `addRequest` call keeps the queue within the bound: a full queue
refuses the item and a non-full queue grows by at most one. -/
lemma addRequest_queue_bound (c : Config) (s : RLState Req) (r : Req)
    (elapsed : Rat) (ih : (s.queue.length : Int) ≤ c.maxQueueSize) :
    ((addRequest c s r elapsed).state.queue.length : Int) ≤ c.maxQueueSize := by
  simp only [addRequest]
  split
  · exact ih
  · rename_i hfull
    push_neg at hfull
    split
    · simp only [List.length_append, List.length_singleton]
      push_cast
      omega
    · have hlen := timerTick_queue_length_le c
        { s with queue := s.queue ++ [r] } elapsed
      simp only [List.length_append, List.length_singleton] at hlen
      push_cast
      omega

/-- A single transition keeps the queue within the bound. -/
lemma queue_bound_step (c : Config) {s t : RLState Req} (hstep : Step c s t)
    (ih : (s.queue.length : Int) ≤ c.maxQueueSize) :
    (t.queue.length : Int) ≤ c.maxQueueSize := by
  cases hstep with
  | tick elapsed he =>
      have := timerTick_queue_length_le c s elapsed
      omega
  | add r elapsed he => exact addRequest_queue_bound c s r elapsed ih

/-- The queue bound holds in every reachable state. -/
lemma reachable_queue_bound (c : Config) {s : RLState Req}
    (hq : 0 < c.maxQueueSize) (hs : Reachable c s) :
    (s.queue.length : Int) ≤ c.maxQueueSize := by
  induction hs with
  | init => simpa [initState] using hq.le
  | step _ hstep ih => exact queue_bound_step c hstep ih
end RateLimiter

/-! Lemmas about the lock model. -/

namespace AsyncLock

lemma lockInv_step {s t : LockState} (hstep : LockStep s t) (hs : LockInv s) :
    LockInv t := by
  obtain ⟨h1, h2, h3⟩ := hs
  cases hstep with
  | acquireFree c hfree =>
      obtain ⟨hh, hw⟩ := h1 hfree
      exact ⟨by simp, by simp [hh], by simp [h3]⟩
  | acquireBusy c hbusy =>
      refine ⟨by simp [hbusy], by simpa [hbusy] using h2, ?_⟩
      simp [h3]
  | releaseToWaiter c w rest hh hw =>
      refine ⟨by simp, by simp, ?_⟩
      simp only []
      rw [h3, hw]
      simp
  | releaseIdle c hh hw =>
      exact ⟨by simp [hw], by simp, by simp [h3, hw]⟩

lemma lockReachable_inv {s : LockState} (hs : LockReachable s) : LockInv s := by
  induction hs with
  | init => exact ⟨fun _ => ⟨rfl, rfl⟩, by simp [lockInit], rfl⟩
  | step _ hstep ih => exact lockInv_step hstep ih

/-- Every step that extends `grants` is a release by the unique current
holder, handing the lock to the front waiter. -/
lemma grants_grow_only_on_release {s t : LockState} (hstep : LockStep s t)
    (hne : t.grants ≠ s.grants) :
    ∃ c w rest, s.holders = [c] ∧ s.waitingQueue = w :: rest ∧
      t.grants = s.grants ++ [w] ∧ t.holders = [w] := by
  cases hstep with
  | acquireFree c hfree => exact absurd rfl hne
  | acquireBusy c hbusy => exact absurd rfl hne
  | releaseToWaiter c w rest hh hw => exact ⟨c, w, rest, hh, hw, rfl, rfl⟩
  | releaseIdle c hh hw => exact absurd rfl hne

end AsyncLock

/-! Theorems settling the individual claims. -/

/-- Claim C2: on every drain tick `mpsCounter` is reset outright to
`maxPerSecond`, and `mpmCounter` is refilled by
`(elapsed / 60000) * maxPerMinute` based on the elapsed wall-clock time
since the last refill, clamped at `maxPerMinute`; the tick then subtracts
one token per released item from the refilled value.  In particular, with
`maxPerMinute = 10`, a fully consumed counter (`mpmCounter = 0`) refilled
after exactly `30000` ms with no intervening ticks rises by `5`. -/
theorem claim_C2_refill_policy {Req : Type} (c : RateLimiter.Config)
    (s : RateLimiter.RLState Req) (elapsed : Rat) :
    ((RateLimiter.refillPhase c s elapsed).mpsCounter = c.maxPerSecond ∧
      (RateLimiter.refillPhase c s elapsed).mpmCounter =
        min (s.mpmCounter + elapsed / 60000 * (c.maxPerMinute : Rat))
          (c.maxPerMinute : Rat) ∧
      (RateLimiter.timerTick c s elapsed).1.mpmCounter =
        (RateLimiter.refillPhase c s elapsed).mpmCounter -
          ((RateLimiter.timerTick c s elapsed).2.length : Rat)) ∧
    RateLimiter.refillMpmCounter ⟨2, 10, 5⟩ 0 30000 = 0 + 5 := by
  refine ⟨⟨rfl, rfl, rfl⟩, ?_⟩
  norm_num [RateLimiter.refillMpmCounter]

/-- Claim C3: an `addRequest` call made while the queue length is at least
`maxQueueSize` throws `QueueFullError`, leaves the limiter state (and in
particular the queue) unchanged, and neither enqueues nor executes the
submitted request. -/
theorem claim_C3_queue_full_rejected {Req : Type} (c : RateLimiter.Config)
    (s : RateLimiter.RLState Req) (r : Req) (elapsed : Rat)
    (h : (s.queue.length : Int) ≥ c.maxQueueSize) :
    (RateLimiter.addRequest c s r elapsed).outcome =
        .error .queueFull ∧
      (RateLimiter.addRequest c s r elapsed).state = s ∧
      (RateLimiter.addRequest c s r elapsed).released = [] := by
  simp [RateLimiter.addRequest, h]

/-- Witness for claim C3 at a limiter with `maxQueueSize = 1` and one
queued item. -/
theorem claim_C3_witness :
    (RateLimiter.addRequest ⟨1, 2, 1⟩ ⟨true, [0], 1, 2⟩ 7 0).outcome =
        .error .queueFull ∧
      (RateLimiter.addRequest ⟨1, 2, 1⟩ ⟨true, [0], 1, 2⟩ 7 0).state =
        ⟨true, [0], 1, 2⟩ ∧
      (RateLimiter.addRequest ⟨1, 2, 1⟩ ⟨true, [0], 1, 2⟩ 7 0).released = [] :=
  claim_C3_queue_full_rejected ⟨1, 2, 1⟩ ⟨true, [0], 1, 2⟩ 7 0 (by norm_num)

/-- Claim C6 counterexample: the effective options `(maxPerSecond,
maxPerMinute, maxQueueSize) = (1, 1, 0)` violate `maxQueueSize > 0`, so the
claim says construction must fail with `InvalidOptionsError`; the
constructor's check does not inspect `maxQueueSize` and construction
succeeds. -/
theorem claim_C6_counterexample :
    ¬ (0 : Int) > 0 ∧ RateLimiter.construct 1 1 0 = .ok ⟨1, 1, 0⟩ := by
  constructor
  · decide
  · norm_num [RateLimiter.construct]

/-- Claim C6 (amended): construction fails with `InvalidOptionsError`,
producing no instance, exactly when the effective options violate
`maxPerSecond ≤ maxPerMinute`, `maxPerSecond > 0` or `maxPerMinute > 0`;
`maxQueueSize` is never validated, and for all options satisfying those
three conditions construction succeeds. -/
theorem claim_C6_validation (maxPS maxPM maxQS : Int) :
    (RateLimiter.construct maxPS maxPM maxQS =
        .error .invalidOptions ↔
      (maxPS > maxPM ∨ maxPS ≤ 0 ∨ maxPM ≤ 0)) ∧
    (¬(maxPS > maxPM ∨ maxPS ≤ 0 ∨ maxPM ≤ 0) →
      RateLimiter.construct maxPS maxPM maxQS = .ok ⟨maxPS, maxPM, maxQS⟩) := by
  constructor
  · constructor
    · intro h
      by_contra hc
      simp [RateLimiter.construct, hc] at h
    · intro h
      simp [RateLimiter.construct, h]
  · intro h
    simp [RateLimiter.construct, h]

/-- Witness for claim C6 (amended) at the valid options `(2, 10, 5)`. -/
theorem claim_C6_witness :
    RateLimiter.construct 2 10 5 = .ok ⟨2, 10, 5⟩ :=
  (claim_C6_validation 2 10 5).2 (by norm_num)

/-- Claim C8: at the end of a tick the timer is re-armed if and only if the
queue is still non-empty once all items released in the tick have settled;
with an empty queue the timer is set to absent and no further tick is
scheduled. -/
theorem claim_C8_timer_lifecycle {Req : Type} (c : RateLimiter.Config)
    (s : RateLimiter.RLState Req) (elapsed : Rat) :
    ((RateLimiter.timerTick c s elapsed).1.timer = true ↔
      (RateLimiter.timerTick c s elapsed).1.queue ≠ []) := by
  simp [RateLimiter.timerTick]

/-- Claim C1: in every reachable state of the limiter the capacity available
for execution is `min(mpsCounter, floor(mpmCounter))`, and a drain tick
removes a prefix of the waiting line (FIFO enqueue order) of at most the
available-token count computed after the tick's refill. -/
theorem claim_C1_capacity_fifo {Req : Type} (c : RateLimiter.Config)
    (s : RateLimiter.RLState Req) (elapsed : Rat)
    (hv : RateLimiter.ValidLimits c) (hs : RateLimiter.Reachable c s)
    (he : 0 ≤ elapsed) :
    RateLimiter.calculateAvailableRequests s =
        min s.mpsCounter ⌊s.mpmCounter⌋ ∧
      (RateLimiter.timerTick c s elapsed).2 ++
          (RateLimiter.timerTick c s elapsed).1.queue = s.queue ∧
      ((RateLimiter.timerTick c s elapsed).2.length : Int) ≤
        RateLimiter.calculateAvailableRequests
          (RateLimiter.refillPhase c s elapsed) := by
  refine ⟨rfl, RateLimiter.timerTick_queue_eq c s elapsed, ?_⟩
  obtain ⟨h1, h2, h3, h4⟩ := RateLimiter.reachable_counterInv c hv hs
  have hm0 : 0 ≤ RateLimiter.refillMpmCounter c s.mpmCounter elapsed :=
    RateLimiter.refillMpmCounter_nonneg c hv.2.1 h3 he
  have ha : 0 ≤ min c.maxPerSecond
      ⌊RateLimiter.refillMpmCounter c s.mpmCounter elapsed⌋ :=
    le_min hv.1.le (Int.floor_nonneg.mpr hm0)
  have hlen := RateLimiter.dequeueLoop_length_le ha s.queue
  simpa [RateLimiter.timerTick, RateLimiter.refillPhase,
    RateLimiter.calculateAvailableRequests] using hlen

/-- Witness for claim C1 at a freshly constructed limiter with limits
`(2, 10, 5)`. -/
theorem claim_C1_witness :
    RateLimiter.calculateAvailableRequests
        (RateLimiter.initState ⟨2, 10, 5⟩ Nat) =
      min (RateLimiter.initState ⟨2, 10, 5⟩ Nat).mpsCounter
        ⌊(RateLimiter.initState ⟨2, 10, 5⟩ Nat).mpmCounter⌋ ∧
    (RateLimiter.timerTick ⟨2, 10, 5⟩ (RateLimiter.initState ⟨2, 10, 5⟩ Nat)
          0).2 ++
        (RateLimiter.timerTick ⟨2, 10, 5⟩ (RateLimiter.initState ⟨2, 10, 5⟩ Nat)
            0).1.queue =
      (RateLimiter.initState ⟨2, 10, 5⟩ Nat).queue ∧
    ((RateLimiter.timerTick ⟨2, 10, 5⟩ (RateLimiter.initState ⟨2, 10, 5⟩ Nat)
          0).2.length : Int) ≤
      RateLimiter.calculateAvailableRequests
        (RateLimiter.refillPhase ⟨2, 10, 5⟩
          (RateLimiter.initState ⟨2, 10, 5⟩ Nat) 0) :=
  claim_C1_capacity_fifo ⟨2, 10, 5⟩ (RateLimiter.initState ⟨2, 10, 5⟩ Nat) 0
    (by norm_num [RateLimiter.ValidLimits]) RateLimiter.Reachable.init
    (by norm_num)

/-- Claim C4 (amended): provided the limiter's operations do not overlap —
each drain tick, together with the per-request decrements of the items it
releases, completes before the next tick or admission begins, which is the
serialized `Step` system — `0 ≤ mpsCounter ≤ maxPerSecond` and
`0 ≤ mpmCounter ≤ maxPerMinute` hold in every reachable state, and during a
tick every intermediate point — after the refill and after each of the `j`
per-request decrements performed so far — also satisfies the bounds (the
counters in fact never dip below zero here, within the claim's accepted
transient-negative allowance).  Without the proviso the claim fails: see
the counterexample, where two same-turn admissions spawn overlapping
`startTimer`-invoked ticks and drive both counters to `-1`. -/
theorem claim_C4_token_invariant {Req : Type} (c : RateLimiter.Config)
    (s : RateLimiter.RLState Req) (elapsed : Rat) (j : Nat)
    (hv : RateLimiter.ValidLimits c) (hs : RateLimiter.Reachable c s)
    (he : 0 ≤ elapsed) (hj : j ≤ (RateLimiter.timerTick c s elapsed).2.length) :
    RateLimiter.CounterInv c s ∧
      (0 ≤ (RateLimiter.refillPhase c s elapsed).mpsCounter - j ∧
        (RateLimiter.refillPhase c s elapsed).mpsCounter - j ≤
          c.maxPerSecond ∧
        0 ≤ (RateLimiter.refillPhase c s elapsed).mpmCounter - j ∧
        (RateLimiter.refillPhase c s elapsed).mpmCounter - j ≤
          (c.maxPerMinute : Rat)) :=
  ⟨RateLimiter.reachable_counterInv c hv hs,
    RateLimiter.tick_partial_bounds c s elapsed hv
      (RateLimiter.reachable_counterInv c hv hs) he j hj⟩

/-- Witness for claim C4 at a freshly constructed limiter with limits
`(2, 10, 5)`. -/
theorem claim_C4_witness :
    RateLimiter.CounterInv ⟨2, 10, 5⟩ (RateLimiter.initState ⟨2, 10, 5⟩ Nat) ∧
      (0 ≤ (RateLimiter.refillPhase ⟨2, 10, 5⟩
          (RateLimiter.initState ⟨2, 10, 5⟩ Nat) 0).mpsCounter - 0 ∧
        (RateLimiter.refillPhase ⟨2, 10, 5⟩
          (RateLimiter.initState ⟨2, 10, 5⟩ Nat) 0).mpsCounter - 0 ≤
          (2 : Int) ∧
        0 ≤ (RateLimiter.refillPhase ⟨2, 10, 5⟩
          (RateLimiter.initState ⟨2, 10, 5⟩ Nat) 0).mpmCounter - 0 ∧
        (RateLimiter.refillPhase ⟨2, 10, 5⟩
          (RateLimiter.initState ⟨2, 10, 5⟩ Nat) 0).mpmCounter - 0 ≤
          ((10 : Int) : Rat)) :=
  claim_C4_token_invariant ⟨2, 10, 5⟩ (RateLimiter.initState ⟨2, 10, 5⟩ Nat) 0 0
    (by norm_num [RateLimiter.ValidLimits]) RateLimiter.Reachable.init
    (by norm_num) (Nat.zero_le _)

/-- Claim C4 counterexample: with `maxPerSecond = maxPerMinute = 1` and
`maxQueueSize = 2`, two `addRequest` calls in the same turn violate
`0 ≤ mpsCounter` at an observable instant.  The trace follows the actual
microtask order of the event loop: both calls pass the capacity check and
suspend at `acquire`; the first pushes its item and, `this.timer` being
still unset (it is only assigned at the very end of a tick), spawns tick
`0`; the second still sees `timer` unset and spawns tick `1`; tick `0`
resets and refills the counters, releases, and launches a `processRequest`
whose decrement queues behind tick `1` on the lock; tick `1` resets and
refills again before any decrement has run and launches a second
`processRequest`; the two deferred decrements then run back to back,
driving `mpsCounter` (and `mpmCounter`) from `1` to `-1`. -/
theorem claim_C4_counterexample :
    Micro.MicroReachable ⟨1, 1, 2⟩
        ⟨false, [], -1, -1, false, none, [], [(0, 1), (1, 1)], [0, 1], 2⟩ ∧
      ¬ (0 ≤ (⟨false, [], -1, -1, false, none, [], [(0, 1), (1, 1)], [0, 1],
          2⟩ : Micro.MicroState).mpsCounter) := by
  constructor
  · have h0 : Micro.MicroReachable ⟨1, 1, 2⟩
        ⟨false, [], 1, 1, false, none, [], [], [], 0⟩ := by
      have e : Micro.microInit ⟨1, 1, 2⟩ =
          ⟨false, [], 1, 1, false, none, [], [], [], 0⟩ := by
        norm_num [Micro.microInit]
      exact e ▸ Micro.MicroReachable.init
    have h1 : Micro.MicroReachable ⟨1, 1, 2⟩
        ⟨false, [], 1, 1, true, some (Micro.MicroTask.addReq 1), [], [], [],
          0⟩ := by
      have e : Micro.acquireTask ⟨false, [], 1, 1, false, none, [], [], [], 0⟩
            (Micro.MicroTask.addReq 1) =
          ⟨false, [], 1, 1, true, some (Micro.MicroTask.addReq 1), [], [], [],
            0⟩ := by
        norm_num [Micro.acquireTask]
      exact e ▸ h0.step (Micro.MicroStep.callAdd _ 1 (by norm_num))
    have h2 : Micro.MicroReachable ⟨1, 1, 2⟩
        ⟨false, [], 1, 1, true, some (Micro.MicroTask.addReq 1),
          [Micro.MicroTask.addReq 2], [], [], 0⟩ := by
      have e : Micro.acquireTask
            ⟨false, [], 1, 1, true, some (Micro.MicroTask.addReq 1), [], [],
              [], 0⟩ (Micro.MicroTask.addReq 2) =
          ⟨false, [], 1, 1, true, some (Micro.MicroTask.addReq 1),
            [Micro.MicroTask.addReq 2], [], [], 0⟩ := by
        norm_num [Micro.acquireTask]
      exact e ▸ h1.step (Micro.MicroStep.callAdd _ 2 (by norm_num))
    have h3 : Micro.MicroReachable ⟨1, 1, 2⟩
        ⟨false, [1], 1, 1, true, some (Micro.MicroTask.addReq 2),
          [Micro.MicroTask.tickAcq 0], [], [], 1⟩ := by
      have e : Micro.addRun
            ⟨false, [], 1, 1, true, some (Micro.MicroTask.addReq 1),
              [Micro.MicroTask.addReq 2], [], [], 0⟩ 1 =
          ⟨false, [1], 1, 1, true, some (Micro.MicroTask.addReq 2),
            [Micro.MicroTask.tickAcq 0], [], [], 1⟩ := by
        norm_num [Micro.addRun, Micro.acquireTask, Micro.releaseLock]
      exact e ▸ h2.step (Micro.MicroStep.runAdd _ 1 rfl)
    have h4 : Micro.MicroReachable ⟨1, 1, 2⟩
        ⟨false, [1, 2], 1, 1, true, some (Micro.MicroTask.tickAcq 0),
          [Micro.MicroTask.tickAcq 1], [], [], 2⟩ := by
      have e : Micro.addRun
            ⟨false, [1], 1, 1, true, some (Micro.MicroTask.addReq 2),
              [Micro.MicroTask.tickAcq 0], [], [], 1⟩ 2 =
          ⟨false, [1, 2], 1, 1, true, some (Micro.MicroTask.tickAcq 0),
            [Micro.MicroTask.tickAcq 1], [], [], 2⟩ := by
        norm_num [Micro.addRun, Micro.acquireTask, Micro.releaseLock]
      exact e ▸ h3.step (Micro.MicroStep.runAdd _ 2 rfl)
    have h5 : Micro.MicroReachable ⟨1, 1, 2⟩
        ⟨false, [2], 1, 1, true, some (Micro.MicroTask.tickAcq 1),
          [Micro.MicroTask.procAcq 0], [(0, 1)], [], 2⟩ := by
      have e : Micro.tickRun ⟨1, 1, 2⟩
            ⟨false, [1, 2], 1, 1, true, some (Micro.MicroTask.tickAcq 0),
              [Micro.MicroTask.tickAcq 1], [], [], 2⟩ 0 0 =
          ⟨false, [2], 1, 1, true, some (Micro.MicroTask.tickAcq 1),
            [Micro.MicroTask.procAcq 0], [(0, 1)], [], 2⟩ := by
        norm_num [Micro.tickRun, Micro.releaseLock, Micro.spawnProcs,
          Micro.acquireTask, RateLimiter.refillMpmCounter,
          RateLimiter.dequeueLoop]
      exact e ▸ h4.step (Micro.MicroStep.runTick _ 0 0 le_rfl rfl)
    have h6 : Micro.MicroReachable ⟨1, 1, 2⟩
        ⟨false, [], 1, 1, true, some (Micro.MicroTask.procAcq 0),
          [Micro.MicroTask.procAcq 1], [(0, 1), (1, 1)], [], 2⟩ := by
      have e : Micro.tickRun ⟨1, 1, 2⟩
            ⟨false, [2], 1, 1, true, some (Micro.MicroTask.tickAcq 1),
              [Micro.MicroTask.procAcq 0], [(0, 1)], [], 2⟩ 1 0 =
          ⟨false, [], 1, 1, true, some (Micro.MicroTask.procAcq 0),
            [Micro.MicroTask.procAcq 1], [(0, 1), (1, 1)], [], 2⟩ := by
        norm_num [Micro.tickRun, Micro.releaseLock, Micro.spawnProcs,
          Micro.acquireTask, RateLimiter.refillMpmCounter,
          RateLimiter.dequeueLoop]
      exact e ▸ h5.step (Micro.MicroStep.runTick _ 1 0 le_rfl rfl)
    have h7 : Micro.MicroReachable ⟨1, 1, 2⟩
        ⟨false, [], 0, 0, true, some (Micro.MicroTask.procAcq 1), [],
          [(0, 1), (1, 1)], [0], 2⟩ := by
      have e : Micro.procRun
            ⟨false, [], 1, 1, true, some (Micro.MicroTask.procAcq 0),
              [Micro.MicroTask.procAcq 1], [(0, 1), (1, 1)], [], 2⟩ 0 =
          ⟨false, [], 0, 0, true, some (Micro.MicroTask.procAcq 1), [],
            [(0, 1), (1, 1)], [0], 2⟩ := by
        norm_num [Micro.procRun, Micro.releaseLock]
      exact e ▸ h6.step (Micro.MicroStep.runProc _ 0 rfl)
    have e : Micro.procRun
          ⟨false, [], 0, 0, true, some (Micro.MicroTask.procAcq 1), [],
            [(0, 1), (1, 1)], [0], 2⟩ 1 =
        ⟨false, [], -1, -1, false, none, [], [(0, 1), (1, 1)], [0, 1], 2⟩ := by
      norm_num [Micro.procRun, Micro.releaseLock]
    exact e ▸ h7.step (Micro.MicroStep.runProc _ 1 rfl)
  · norm_num

/-- Claim C5 counterexample: with `maxQueueSize = 1`, two overlapping
`addRequest` calls both run the capacity check (which happens before
`await tokenLock.acquire()`) while the queue is still empty, and both later
push, so the interleaved admission model reaches a state whose queue length
is `2 > maxQueueSize`. -/
theorem claim_C5_counterexample :
    Adm.AdmReachable 1 ⟨[0, 1], []⟩ ∧
      ¬ ((((⟨[0, 1], []⟩ : Adm.AdmState)).queue.length : Int) ≤ 1) := by
  constructor
  · have h0 : Adm.AdmReachable 1 ⟨[], []⟩ := Adm.AdmReachable.init
    have h1 : Adm.AdmReachable 1 ⟨[], [0]⟩ :=
      h0.step (Adm.AdmStep.checkPass ⟨[], []⟩ 0 (by norm_num))
    have h2 : Adm.AdmReachable 1 ⟨[], [0, 1]⟩ :=
      h1.step (Adm.AdmStep.checkPass ⟨[], [0]⟩ 1 (by norm_num))
    have h3 : Adm.AdmReachable 1 ⟨[0], [1]⟩ :=
      h2.step (Adm.AdmStep.push ⟨[], [0, 1]⟩ 0 [1] rfl)
    exact h3.step (Adm.AdmStep.push ⟨[0], [1]⟩ 1 [] rfl)
  · norm_num

/-- Claim C5 (amended): provided `addRequest` calls do not overlap — each
call's check and enqueue complete before the next call begins, which is the
atomic-admission transition system — the waiting line's length is at most
`maxQueueSize` in every reachable state, and a call that observes a full
queue is refused outright (the queue is left untouched), never truncated. -/
theorem claim_C5_bounded_queue {Req : Type} (c : RateLimiter.Config)
    (s : RateLimiter.RLState Req) (hq : 0 < c.maxQueueSize)
    (hs : RateLimiter.Reachable c s) :
    (s.queue.length : Int) ≤ c.maxQueueSize ∧
      ∀ (r : Req) (elapsed : Rat),
        (s.queue.length : Int) ≥ c.maxQueueSize →
          (RateLimiter.addRequest c s r elapsed).state = s := by
  refine ⟨RateLimiter.reachable_queue_bound c hq hs, ?_⟩
  intro r elapsed hfull
  simp [RateLimiter.addRequest, hfull]

/-- Witness for claim C5 (amended) at a freshly constructed limiter with
limits `(2, 10, 5)`. -/
theorem claim_C5_witness :
    (((RateLimiter.initState ⟨2, 10, 5⟩ Nat).queue.length : Int) ≤ 5) ∧
      ∀ (r : Nat) (elapsed : Rat),
        (((RateLimiter.initState ⟨2, 10, 5⟩ Nat).queue.length : Int) ≥ 5) →
          (RateLimiter.addRequest ⟨2, 10, 5⟩
              (RateLimiter.initState ⟨2, 10, 5⟩ Nat) r elapsed).state =
            RateLimiter.initState ⟨2, 10, 5⟩ Nat :=
  claim_C5_bounded_queue ⟨2, 10, 5⟩ (RateLimiter.initState ⟨2, 10, 5⟩ Nat)
    (by norm_num) RateLimiter.Reachable.init

/-- Claim C7: when the underlying work fails with error `e`, `processRequest`
first invokes the configured error handler with `e` and then rejects the
caller's pending result with the same, unmodified `e`; a handler that itself
throws is caught by the inner `catch` (its exception is logged via
`console.error` and never escapes into the drain loop) and the caller's
result is still rejected with `e`. -/
theorem claim_C7_error_propagation {T E H : Type} (e : E)
    (errorHandler : E → Except H Unit) :
    ((ProcessRequest.processRequestEvents
          (ProcessRequest.ReqResult.err e : ProcessRequest.ReqResult T E)
          errorHandler).head? =
        some (ProcessRequest.PEvent.callErrorHandler e)) ∧
      ((ProcessRequest.processRequestEvents
          (ProcessRequest.ReqResult.err e : ProcessRequest.ReqResult T E)
          errorHandler).getLast? =
        some (ProcessRequest.PEvent.rejectCaller e)) ∧
      (∀ u : Unit, errorHandler e = .ok u →
        ProcessRequest.processRequestEvents
            (ProcessRequest.ReqResult.err e : ProcessRequest.ReqResult T E)
            errorHandler =
          [ProcessRequest.PEvent.callErrorHandler e,
            ProcessRequest.PEvent.rejectCaller e]) ∧
      (∀ herr : H, errorHandler e = .error herr →
        ProcessRequest.processRequestEvents
            (ProcessRequest.ReqResult.err e : ProcessRequest.ReqResult T E)
            errorHandler =
          [ProcessRequest.PEvent.callErrorHandler e,
            ProcessRequest.PEvent.consoleErrorLog herr,
            ProcessRequest.PEvent.rejectCaller e]) := by
  cases h : errorHandler e with
  | ok u =>
      refine ⟨?_, ?_, ?_, ?_⟩ <;>
        simp [ProcessRequest.processRequestEvents, ProcessRequest.handlerEvents, h]
  | error herr =>
      refine ⟨?_, ?_, ?_, ?_⟩ <;>
        simp [ProcessRequest.processRequestEvents, ProcessRequest.handlerEvents, h]

/-- Witness for claim C7 at a concrete failing request whose error handler
itself throws. -/
theorem claim_C7_witness :
    ProcessRequest.processRequestEvents
        (ProcessRequest.ReqResult.err 7 : ProcessRequest.ReqResult Nat Nat)
        (fun _ => Except.error 3) =
      [ProcessRequest.PEvent.callErrorHandler 7,
        ProcessRequest.PEvent.consoleErrorLog 3,
        ProcessRequest.PEvent.rejectCaller 7] :=
  (claim_C7_error_propagation 7 (fun _ => Except.error 3)).2.2.2 3 rfl

/-- Claim C9: in every reachable state of the `AsyncLock` at most one caller
holds the lock; the queued acquirers are granted the lock in the order their
`acquire` calls were queued (the grant log followed by the current waiting
queue is exactly the enqueue log); and every grant to a queued acquirer
happens in a `release` step of the unique current holder, which hands the
lock to the front waiter. -/
theorem claim_C9_lock_contract (s : AsyncLock.LockState)
    (hs : AsyncLock.LockReachable s) :
    s.holders.length ≤ 1 ∧
      s.enqueuedWaiters = s.grants ++ s.waitingQueue ∧
      ∀ t, AsyncLock.LockStep s t → t.grants ≠ s.grants →
        ∃ c w rest, s.holders = [c] ∧ s.waitingQueue = w :: rest ∧
          t.grants = s.grants ++ [w] ∧ t.holders = [w] := by
  obtain ⟨h1, h2, h3⟩ := AsyncLock.lockReachable_inv hs
  refine ⟨?_, h3, ?_⟩
  · cases hl : s.locked
    · simp [(h1 hl).1]
    · simp [h2 hl]
  · intro t hstep hne
    exact AsyncLock.grants_grow_only_on_release hstep hne

/-- Witness for claim C9 at the state reached by caller `0` acquiring the
free lock, caller `1` queueing behind it, and caller `0` releasing. -/
theorem claim_C9_witness :
    (⟨true, [], [1], [1], [1]⟩ : AsyncLock.LockState).holders.length ≤ 1 ∧
      (⟨true, [], [1], [1], [1]⟩ : AsyncLock.LockState).enqueuedWaiters =
        (⟨true, [], [1], [1], [1]⟩ : AsyncLock.LockState).grants ++
          (⟨true, [], [1], [1], [1]⟩ : AsyncLock.LockState).waitingQueue ∧
      ∀ t, AsyncLock.LockStep ⟨true, [], [1], [1], [1]⟩ t →
        t.grants ≠ (⟨true, [], [1], [1], [1]⟩ : AsyncLock.LockState).grants →
        ∃ c w rest,
          (⟨true, [], [1], [1], [1]⟩ : AsyncLock.LockState).holders = [c] ∧
          (⟨true, [], [1], [1], [1]⟩ : AsyncLock.LockState).waitingQueue =
            w :: rest ∧
          t.grants =
            (⟨true, [], [1], [1], [1]⟩ : AsyncLock.LockState).grants ++ [w] ∧
          t.holders = [w] :=
  claim_C9_lock_contract ⟨true, [], [1], [1], [1]⟩
    (AsyncLock.LockReachable.step
      (AsyncLock.LockReachable.step
        (AsyncLock.LockReachable.step AsyncLock.LockReachable.init
          (AsyncLock.LockStep.acquireFree AsyncLock.lockInit 0 rfl))
        (AsyncLock.LockStep.acquireBusy ⟨true, [], [0], [], []⟩ 1 rfl))
      (AsyncLock.LockStep.releaseToWaiter ⟨true, [1], [0], [], [1]⟩ 0 1 [] rfl
        rfl))

/-- Claim C10: when `addRequest` admits a request while the limiter is idle
(no timer armed) with full budgets, `startTimer` invokes `timerTick`
directly and synchronously, so the request is released on that immediate
tick — the call returns with the request already dequeued and launched, and
no timer is left armed — rather than waiting about `1000` ms for a first
timer firing. -/
theorem claim_C10_immediate_tick {Req : Type} (c : RateLimiter.Config)
    (s : RateLimiter.RLState Req) (r : Req) (elapsed : Rat)
    (hps : 1 ≤ c.maxPerSecond) (hpm : 1 ≤ c.maxPerMinute)
    (hq : 0 < c.maxQueueSize) (ht : s.timer = false) (hqe : s.queue = [])
    (hmps : s.mpsCounter = c.maxPerSecond)
    (hmpm : s.mpmCounter = (c.maxPerMinute : Rat)) (he : 0 ≤ elapsed) :
    (RateLimiter.addRequest c s r elapsed).outcome = .ok () ∧
      (RateLimiter.addRequest c s r elapsed).released = [r] ∧
      (RateLimiter.addRequest c s r elapsed).state.queue = [] ∧
      (RateLimiter.addRequest c s r elapsed).state.timer = false := by
  have hnotfull : ¬ ((s.queue.length : Int) ≥ c.maxQueueSize) := by
    rw [hqe]
    simpa using hq
  have hx : (0 : Rat) ≤ elapsed / 60000 * (c.maxPerMinute : Rat) := by
    have : (0 : Rat) ≤ (c.maxPerMinute : Rat) := by exact_mod_cast
      (le_trans zero_le_one hpm)
    positivity
  have hmpm1 : RateLimiter.refillMpmCounter c s.mpmCounter elapsed =
      (c.maxPerMinute : Rat) := by
    rw [hmpm, RateLimiter.refillMpmCounter]
    exact min_eq_right (le_add_of_nonneg_right hx)
  have havail : (0 : Int) <
      min c.maxPerSecond ⌊RateLimiter.refillMpmCounter c s.mpmCounter elapsed⌋ := by
    rw [hmpm1]
    simp only [Int.floor_intCast]
    exact lt_min (by omega) (by omega)
  simp [RateLimiter.addRequest, hnotfull, ht, RateLimiter.timerTick,
    RateLimiter.refillPhase, hqe, RateLimiter.dequeueLoop, havail, hq.not_le]

/-- Witness for claim C10: a request submitted to a freshly constructed idle
limiter with limits `(1, 1, 1)` is released by the immediate tick inside the
`addRequest` call itself. -/
theorem claim_C10_witness :
    (RateLimiter.addRequest ⟨1, 1, 1⟩ (RateLimiter.initState ⟨1, 1, 1⟩ Nat) 0
          0).outcome = .ok () ∧
      (RateLimiter.addRequest ⟨1, 1, 1⟩ (RateLimiter.initState ⟨1, 1, 1⟩ Nat) 0
          0).released = [0] ∧
      (RateLimiter.addRequest ⟨1, 1, 1⟩ (RateLimiter.initState ⟨1, 1, 1⟩ Nat) 0
          0).state.queue = [] ∧
      (RateLimiter.addRequest ⟨1, 1, 1⟩ (RateLimiter.initState ⟨1, 1, 1⟩ Nat) 0
          0).state.timer = false :=
  claim_C10_immediate_tick ⟨1, 1, 1⟩ (RateLimiter.initState ⟨1, 1, 1⟩ Nat) 0 0
    (by norm_num) (by norm_num) (by norm_num) rfl rfl rfl rfl (by norm_num)
